import Mathlib

/-!
# OWASP Go-SCP: the JWT session gateway

A shallow embedding of the three session programs of the repository

* `src/session-management/session.go`      (namespace `Session`)
* `src/en/session-management/session.go`   (namespace `SessionEn`)
* `docs/access-control/URL.go`             (namespace `URL`)

Handlers are state-passing functions on a response writer.  The packages the
programs import (`time`, `net/http`, `context`, `fmt`, `jwt-go`) are not part of
the repository; they appear here at the level of their API:

* `time.Now()` is a clock that is read: a handler receives the sequence of the
  readings it will obtain (`Clock`), reading `k` being the result of its `k`-th
  call;
* a `ResponseWriter` records header map, written body, explicit status, the
  cookies handed to `http.SetCookie` and the call to `http.Redirect`; the expiry a
  Set-Cookie line carries is `Cookie.ExpiresWritten`, in whole seconds;
* the JWT library is a parameter (`jwt.Library`); `jwt.std` is the model of
  `github.com/dgrijalva/jwt-go` over abstract encoding and signature primitives, whose
  laws (`Codec.Lawful`) are proved of the codec `Plain.codec`.
-/

set_option autoImplicit false

namespace GoSCP

/-! ## package time -/

/-- An instant: nanoseconds since the Unix epoch. -/
abbrev Time := Int

/-- A `time.Duration`: a number of nanoseconds. -/
abbrev Duration := Int

namespace time

def Second : Duration := 1000000000

def Minute : Duration := 60 * Second

/-- The method `Time.Add`. -/
def Add (t : Time) (d : Duration) : Time := t + d

/-- The method `Time.Unix`: whole seconds since the epoch, rounded down. -/
def Unix (t : Time) : Int := t / Second

end time

/-- The readings successive calls of `time.Now()` return during one handler run. -/
abbrev Clock := Nat → Time

/-- The clock after one reading has been consumed. -/
def Clock.tail (clock : Clock) : Clock := fun n => clock (n + 1)

/-! ## package jwt: types -/

/-- A signing key, the bytes of a string. -/
abbrev KeyBytes := String

abbrev Error := String

namespace jwt

/-- The registered signing methods, by the Go type of the method value. -/
inductive SigningMethod where
  /-- Type `*SigningMethodHMAC` (HS256, HS384, HS512). -/
  | HMAC (alg : String)
  /-- Type `*SigningMethodRSA` (RS256, RS384, RS512). -/
  | RSA (alg : String)
  /-- Type `*SigningMethodRSAPSS` (PS256, PS384, PS512). -/
  | RSAPSS (alg : String)
  /-- Type `*SigningMethodECDSA` (ES256, ES384, ES512). -/
  | ECDSA (alg : String)
  /-- The unsigned method, alg "none". -/
  | None
  deriving DecidableEq, Repr

def SigningMethodHS256 : SigningMethod := .HMAC "HS256"

structure StandardClaims where
  Audience : String := ""
  ExpiresAt : Int := 0
  Id : String := ""
  IssuedAt : Int := 0
  Issuer : String := ""
  NotBefore : Int := 0
  Subject : String := ""
  deriving DecidableEq, Repr

end jwt

/-! ## the programs' types (identical in the three files) -/

/-- The type `Key int` of the programs: the context key type. -/
inductive CtxKey where
  | Key (n : Int)
  | other (name : String)
  deriving DecidableEq, Repr

def MyKey : CtxKey := .Key 0

/-- JWT schema of the data the token stores. -/
structure Claims where
  Username : String
  StandardClaims : jwt.StandardClaims
  deriving DecidableEq, Repr

namespace jwt

/-- The dynamic value behind the interface field `Token.Claims`. -/
inductive ClaimsValue where
  /-- A `*Claims`, the type the programs assert. -/
  | ClaimsPtr (c : Claims)
  /-- A value of another claims type, such as `jwt.MapClaims`. -/
  | Other (m : List (String × String))
  deriving DecidableEq, Repr

structure Token where
  Raw : String
  Method : SigningMethod
  Claims : ClaimsValue
  Signature : String
  Valid : Bool
  deriving DecidableEq, Repr

/-- The library's `ValidationError`: the inner message and the error flags that matter here. -/
structure ValidationError where
  Inner : Error := ""
  Malformed : Bool := false
  Unverifiable : Bool := false
  SignatureInvalid : Bool := false
  Expired : Bool := false
  IssuedAt : Bool := false
  NotValidYet : Bool := false
  deriving DecidableEq, Repr

abbrev Keyfunc := Token → Except Error KeyBytes

/-- The two library entry points the programs call.  `ParseWithClaims` receives the
reading of the library's clock (`TimeFunc`, which is `time.Now`). -/
structure Library where
  SignedString : SigningMethod → Claims → KeyBytes → Except Error String
  ParseWithClaims : Time → String → Keyfunc → Except ValidationError Token

end jwt

/-! ## package context -/

/-- A value stored in a request context, by dynamic type. -/
inductive CtxValue where
  | Claims (c : Claims)
  | other (s : String)
  deriving DecidableEq, Repr

/-- A context: the chain of `WithValue` bindings, innermost first. -/
abbrev Context := List (CtxKey × CtxValue)

namespace context

def WithValue (parent : Context) (key : CtxKey) (val : CtxValue) : Context :=
  (key, val) :: parent

/-- The method `Context.Value`: the innermost binding of the key, if any. -/
def Value : Context → CtxKey → Option CtxValue
  | [], _ => none
  | (k, v) :: parent, key => if k = key then some v else Value parent key

end context

/-! ## package net/http -/

namespace http

/-- A cookie handed to `http.SetCookie`. -/
structure Cookie where
  Name : String
  Value : String
  Expires : Time
  Path : String := ""
  Domain : String := ""
  HttpOnly : Bool := false
  Secure : Bool := false
  deriving DecidableEq, Repr

structure Request where
  Method : String
  Path : String
  /-- The parsed query string, `req.URL.Query()`, in order of appearance. -/
  Query : List (String × String)
  /-- The cookies of the Cookie header, name and value, in order. -/
  Cookies : List (String × String)
  ctx : Context
  deriving DecidableEq, Repr

/-- The method `Request.Cookie`: the first cookie of that name, or `ErrNoCookie`. -/
def Request.Cookie (req : Request) (name : String) : Except Error (String × String) :=
  match req.Cookies.find? (fun c => c.1 == name) with
  | some c => .ok c
  | none => .error "http: named cookie not present"

def Request.Context (req : Request) : GoSCP.Context := req.ctx

def Request.WithContext (req : Request) (ctx : GoSCP.Context) : Request := { req with ctx := ctx }

/-- The method `url.Values.Get`: the first value of the key, or the empty string. -/
def Values.Get : List (String × String) → String → String
  | [], _ => ""
  | (k, v) :: rest, key => if k = key then v else Values.Get rest key

structure ResponseWriter where
  /-- The header map, `res.Header()`. -/
  header : List (String × String)
  /-- All bytes written so far. -/
  body : String
  /-- The status passed to an explicit `WriteHeader`, if one was made. -/
  status : Option Nat
  /-- The cookies given to `http.SetCookie`, in order. -/
  cookies : List Cookie
  /-- The target and code given to `http.Redirect`. -/
  redirect : Option (String × Nat)
  deriving DecidableEq, Repr

/-- A response writer nothing has been written to. -/
def ResponseWriter.fresh : ResponseWriter :=
  { header := [], body := "", status := none, cookies := [], redirect := none }

/-- The call `res.Header().Set(key, value)`: replaces the values of the key. -/
def ResponseWriter.HeaderSet (res : ResponseWriter) (key value : String) : ResponseWriter :=
  { res with header := res.header.filter (fun kv => kv.1 != key) ++ [(key, value)] }

/-- The check `validCookieExpires` of `net/http`: the Expires attribute is written only
for years from 1601 on; -11644473600 is the Unix second of 1601-01-01 00:00:00 UTC (the
library takes the year in the zone of the time value; the statements below stay at or
after the Unix epoch, far from that bound). -/
def validCookieExpires (t : Time) : Bool := decide (-11644473600 ≤ time.Unix t)

/-- The Expires attribute of the Set-Cookie line that `http.SetCookie` writes for a cookie:
the field `Expires` in UTC, formatted with `http.TimeFormat`, which has whole seconds and
drops the fraction.  Given as the Unix second; none when the attribute is left out. -/
def Cookie.ExpiresWritten (cookie : Cookie) : Option Int :=
  if validCookieExpires cookie.Expires then some (time.Unix cookie.Expires) else none

/-- The call `http.SetCookie(res, &cookie)`.  The writer keeps the cookie as the handler
built it; the Set-Cookie line sent for it carries the expiry `Cookie.ExpiresWritten`. -/
def SetCookie (res : ResponseWriter) (cookie : Cookie) : ResponseWriter :=
  { res with cookies := res.cookies ++ [cookie] }

/-- The call `http.Redirect(res, req, url, code)`: the reply carries status `code` and
sends the client to `url`. -/
def Redirect (res : ResponseWriter) (_req : Request) (url : String) (code : Nat) : ResponseWriter :=
  { res with status := some code, redirect := some (url, code) }

def StatusTemporaryRedirect : Nat := 307

abbrev HandlerFunc := Clock → ResponseWriter → Request → ResponseWriter

end http

namespace fmt

/-- The call `fmt.Fprint(res, s)` (and `fmt.Fprintf` with a format without verbs). -/
def Fprint (res : http.ResponseWriter) (s : String) : http.ResponseWriter :=
  { res with body := res.body ++ s }

end fmt


namespace http

/-- The default multiplexer: the registered patterns with their handlers. -/
structure ServeMux where
  entries : List (String × HandlerFunc)

def ServeMux.empty : ServeMux := ⟨[]⟩

/-- The call `http.HandleFunc(pattern, handler)`. -/
def HandleFunc (mux : ServeMux) (pattern : String) (handler : HandlerFunc) : ServeMux :=
  ⟨mux.entries ++ [(pattern, handler)]⟩

/-- Whether a pattern is a subtree pattern, one that ends in a slash. -/
def endsInSlash (pattern : String) : Bool := pattern.toList.getLast? == some '/'

/-- The longest subtree pattern that begins the path, with its handler. -/
def longestMatch (path : String) :
    List (String × HandlerFunc) → Option (String × HandlerFunc) → Option (String × HandlerFunc)
  | [], best => best
  | e :: es, best =>
    if endsInSlash e.1 && e.1.toList.isPrefixOf path.toList then
      match best with
      | some b => if b.1.length < e.1.length then longestMatch path es (some e)
                  else longestMatch path es best
      | none => longestMatch path es (some e)
    else longestMatch path es best

/-- The multiplexer's lookup: an exact match first, else the longest subtree pattern. -/
def ServeMux.handler (mux : ServeMux) (path : String) : Option HandlerFunc :=
  match mux.entries.find? (fun e => e.1 == path) with
  | some e => some e.2
  | none => (longestMatch path mux.entries none).map (fun e => e.2)

/-- The reply of `http.NotFound`. -/
def NotFound : HandlerFunc := fun _ res _ =>
  let res := res.HeaderSet "Content-Type" "text/plain; charset=utf-8"
  let res := res.HeaderSet "X-Content-Type-Options" "nosniff"
  let res := { res with status := some 404 }
  { res with body := res.body ++ "404 page not found\n" }

def ServeMux.ServeHTTP (mux : ServeMux) : HandlerFunc := fun clock res req =>
  match mux.handler req.Path with
  | some h => h clock res req
  | none => NotFound clock res req

end http

/-! ## package jwt: the library over abstract primitives

The programs import `github.com/dgrijalva/jwt-go`; its source is not in the repository.
The definitions below follow the control flow of the library behind the two calls of the
programs (`Token.SignedString` in `token.go`, `Parser.ParseWithClaims` in `parser.go`,
`StandardClaims.Valid` and `verifyExp`, `verifyIat`, `verifyNbf` in `claims.go`).  JSON and
base64 coding and the signature algorithms stay abstract in a `Codec`.  Statements that
hold for every library are made over `jwt.Library`; the others say `jwt.std`. -/

namespace jwt

structure Codec where
  /-- The method `Token.SigningString`: encoded header, a dot, encoded claims. -/
  SigningString : SigningMethod → Claims → Except Error String
  /-- The method `SigningMethod.Sign`. -/
  Sign : SigningMethod → String → KeyBytes → Except Error String
  /-- The method `SigningMethod.Verify`: whether it returns no error. -/
  Verify : SigningMethod → String → String → KeyBytes → Bool
  /-- The method `Parser.ParseUnverified` into a `*Claims`: the declared method, the
  decoded claims, and the three dot-separated parts of the token string. -/
  ParseUnverified : String → Except ValidationError (SigningMethod × Claims × String × String × String)

/-- The method `Token.SignedString`. -/
def SignedString (codec : Codec) (method : SigningMethod) (claims : Claims) (key : KeyBytes) :
    Except Error String :=
  match codec.SigningString method claims with
  | .error err => .error err
  | .ok sstr =>
    match codec.Sign method sstr key with
    | .error err => .error err
    | .ok sig => .ok (sstr ++ "." ++ sig)

/-- The library's expiry check, in whole seconds: an unset expiry (0) passes when not
required, otherwise the token passes while `now <= exp`. -/
def verifyExp (exp now : Int) (required : Bool) : Bool :=
  if exp = 0 then !required else decide (now ≤ exp)

def verifyIat (iat now : Int) (required : Bool) : Bool :=
  if iat = 0 then !required else decide (now ≥ iat)

def verifyNbf (nbf now : Int) (required : Bool) : Bool :=
  if nbf = 0 then !required else decide (now ≥ nbf)

/-- The method `ValidationError.valid`: no error flag is set. -/
def ValidationError.valid (e : ValidationError) : Bool :=
  !(e.Malformed || e.Unverifiable || e.SignatureInvalid || e.Expired || e.IssuedAt || e.NotValidYet)

/-- The method `StandardClaims.Valid`, promoted to `Claims`; `now` is the reading of
`TimeFunc()`, compared in whole seconds. -/
def StandardClaims.Valid (c : StandardClaims) (now : Time) : ValidationError :=
  let vErr : ValidationError := {}
  let now := time.Unix now
  let vErr := if verifyExp c.ExpiresAt now false = false
    then { vErr with Inner := "token is expired", Expired := true } else vErr
  let vErr := if verifyIat c.IssuedAt now false = false
    then { vErr with Inner := "Token used before issued", IssuedAt := true } else vErr
  let vErr := if verifyNbf c.NotBefore now false = false
    then { vErr with Inner := "token is not valid yet", NotValidYet := true } else vErr
  vErr

/-- The method `Parser.ParseWithClaims`: decode, ask the callback for the key, validate
the claims, verify the signature. -/
def ParseWithClaims (codec : Codec) (now : Time) (tokenString : String) (keyFunc : Keyfunc) :
    Except ValidationError Token :=
  match codec.ParseUnverified tokenString with
  | .error err => .error err
  | .ok (method, claims, p0, p1, p2) =>
    let token : Token :=
      { Raw := tokenString, Method := method, Claims := .ClaimsPtr claims, Signature := "",
        Valid := false }
    match keyFunc token with
    | .error err => .error { Inner := err, Unverifiable := true }
    | .ok key =>
      let vErr := claims.StandardClaims.Valid now
      let token := { token with Signature := p2 }
      let vErr := if codec.Verify token.Method (p0 ++ "." ++ p1) token.Signature key then vErr
        else { vErr with Inner := "signature is invalid", SignatureInvalid := true }
      if vErr.valid then .ok { token with Valid := true } else .error vErr

/-- The library as the programs see it. -/
def std (codec : Codec) : Library :=
  { SignedString := SignedString codec, ParseWithClaims := ParseWithClaims codec }

/-- What is assumed of the coding and the signature algorithm for one method, claims value
and key: signing yields the string `v`, `v` decodes to the same method and claims, and the
signature part of `v` verifies under the same key. -/
def Codec.RoundTrips (codec : Codec) (method : SigningMethod) (claims : Claims) (key : KeyBytes)
    (v : String) : Prop :=
  SignedString codec method claims key = .ok v ∧
  ∃ p0 p1 p2, codec.ParseUnverified v = .ok (method, claims, p0, p1, p2) ∧
    codec.Verify method (p0 ++ "." ++ p1) p2 key = true

end jwt

/-! ## the handlers -/

open http

/-- The three writes every refusal makes. -/
def unauthorized (res : ResponseWriter) : ResponseWriter :=
  let res := res.HeaderSet "Content-Type" "text/html"
  let res := fmt.Fprint res "Unauthorized - Please login <br>"
  fmt.Fprint res "<a href=\"login\"> Login </a>"

/-- The token claims `setToken` builds from its `expireToken`. -/
def tokenClaims (expireToken : Int) : Claims :=
  { Username := "TestUser",
    StandardClaims := { ExpiresAt := expireToken, Issuer := "localhost:9000" } }

/-- Handler `setToken` (the same in the three files): create a JWT and put it in the
client's cookie.  The clock is read twice. -/
def setToken (lib : jwt.Library) : HandlerFunc := fun clock res req =>
  let expireToken := time.Unix (time.Add (clock 0) (time.Minute * 30))
  let expireCookie := time.Add (clock 1) (time.Minute * 30)
  let claims : Claims := tokenClaims expireToken
  let signedToken :=
    match lib.SignedString jwt.SigningMethodHS256 claims "secret" with
    | .ok s => s
    | .error _ => ""
  let cookie : Cookie :=
    { Name := "Auth", Value := signedToken, Expires := expireCookie, HttpOnly := true,
      Path := "/", Domain := "127.0.0.1", Secure := true }
  let res := SetCookie res cookie
  Redirect res req "/profile" StatusTemporaryRedirect

/-- The key callback of `validate`; `errText` is "unexpected signing method" in
`session-management/session.go` and "Unexpected signing method" in the other two files. -/
def keyFunc (errText : String) : jwt.Keyfunc := fun token =>
  match token.Method with
  | .HMAC _ => .ok "secret"
  | _ => .error errText

/-- Middleware `validate`, the same in the three files up to `errText`: middleware to
protect private pages.  The library reads the clock during `ParseWithClaims` (reading 0);
the wrapped page runs on the readings after it.  The claims object `&Claims{}` handed to
the library shows in the dynamic type of `token.Claims`. -/
def validate (errText : String) (lib : jwt.Library) (page : HandlerFunc) : HandlerFunc :=
  fun clock res req =>
    match req.Cookie "Auth" with
    | .error _ => unauthorized res
    | .ok cookie =>
      match lib.ParseWithClaims (clock 0) cookie.2 (keyFunc errText) with
      | .error _ => unauthorized res
      | .ok token =>
        match token.Claims, token.Valid with
        | .ClaimsPtr claims, true =>
          let ctx := context.WithValue req.Context MyKey (.Claims claims)
          page clock.tail res (req.WithContext ctx)
        | _, _ => unauthorized res

/-- Handler `logout` (the same in the three files): deletes the cookie. -/
def logout : HandlerFunc := fun clock res _ =>
  let deleteCookie : Cookie := { Name := "Auth", Value := "none", Expires := clock 0 }
  SetCookie res deleteCookie

namespace Session

def errText : String := "unexpected signing method"

/-- Handler `protectedProfile` of the two `session.go` files. -/
def protectedProfile : HandlerFunc := fun _ res req =>
  match context.Value req.Context MyKey with
  | some (.Claims claims) =>
    let res := res.HeaderSet "Content-Type" "text/html"
    let res := fmt.Fprint res ("Hello " ++ claims.Username ++ " <br>")
    fmt.Fprint res "<a href=\"logout\"> Logout </a>"
  | _ => unauthorized res

/-- The routes `main` of `session-management/session.go` registers. -/
def main (lib : jwt.Library) : ServeMux :=
  let mux := HandleFunc ServeMux.empty "/" (validate errText lib protectedProfile)
  let mux := HandleFunc mux "/login" (setToken lib)
  let mux := HandleFunc mux "/profile" (validate errText lib protectedProfile)
  HandleFunc mux "/logout" (validate errText lib logout)

end Session

namespace SessionEn

def errText : String := "Unexpected signing method"

/-- The routes `main` of `en/session-management/session.go` registers. -/
def main (lib : jwt.Library) : ServeMux :=
  let mux := HandleFunc ServeMux.empty "/" (validate errText lib Session.protectedProfile)
  let mux := HandleFunc mux "/login" (setToken lib)
  let mux := HandleFunc mux "/profile" (validate errText lib Session.protectedProfile)
  HandleFunc mux "/logout" (validate errText lib logout)

end SessionEn

namespace URL

def errText : String := "Unexpected signing method"

def Homepage : HandlerFunc := fun _ res _ =>
  let res := res.HeaderSet "Content-Type" "text/html"
  let res := fmt.Fprint res "Unauthorized - Please login <br>"
  let res := fmt.Fprint res "<a href=\"login\"> Login </a> <br>"
  let res := fmt.Fprint res "<a href=\"profile?page=page2\"> URL Parameters page 2 - Protected </a> <br>"
  fmt.Fprint res "<a href=\"profile\"> Profile - Protected </a> <br>"

/-- Handler `protectedProfile` of `URL.go`. -/
def protectedProfile : HandlerFunc := fun _ res req =>
  match context.Value req.Context MyKey with
  | some (.Claims claims) =>
    let url := Values.Get req.Query "page"
    if url = "page2" then
      let res := res.HeaderSet "Content-Type" "text/html"
      let res := fmt.Fprint res "PAGE 2 <br>"
      fmt.Fprint res "<a href=\"logout\"> Logout </a>"
    else
      let res := res.HeaderSet "Content-Type" "text/html"
      let res := fmt.Fprint res ("Hello " ++ claims.Username ++ " <br>")
      fmt.Fprint res "<a href=\"logout\"> Logout </a>"
  | _ => unauthorized res

/-- The routes `main` of `URL.go` registers. -/
def main (lib : jwt.Library) : ServeMux :=
  let mux := HandleFunc ServeMux.empty "/" Homepage
  let mux := HandleFunc mux "/login" (setToken lib)
  let mux := HandleFunc mux "/profile" (validate errText lib protectedProfile)
  HandleFunc mux "/logout" (validate errText lib logout)

end URL

/-- The session programs of the repository. -/
inductive Program where
  | session
  | sessionEn
  | accessControl
  deriving DecidableEq, Repr

def Program.main (p : Program) (lib : jwt.Library) : ServeMux :=
  match p with
  | .session => Session.main lib
  | .sessionEn => SessionEn.main lib
  | .accessControl => URL.main lib

def Program.errText : Program → String
  | .session => Session.errText
  | .sessionEn => SessionEn.errText
  | .accessControl => URL.errText

/-- Whether `sub` occurs in `s`. -/
def occursIn (sub : List Char) : List Char → Bool
  | [] => sub.isEmpty
  | c :: cs => sub.isPrefixOf (c :: cs) || occursIn sub cs

def contains (s sub : String) : Bool := occursIn sub.toList s.toList

/-- The value of the cookie set last on a response, empty when none was set. -/
def lastCookieValue (res : ResponseWriter) : String :=
  match res.cookies.getLast? with
  | some cookie => cookie.Value
  | none => ""

/-! ## a small concrete codec, for evaluating the library model -/

namespace Toy

/-- The pieces of a string between occurrences of `sep`. -/
def pieces (sep : Char) : List Char → List (List Char)
  | [] => [[]]
  | c :: cs =>
    match pieces sep cs with
    | [] => [[c]]
    | p :: ps => if c = sep then [] :: p :: ps else (c :: p) :: ps

def digitsToNat (ds : List Char) : Option Nat :=
  ds.foldl (fun acc d =>
    match acc with
    | some n => if d.isDigit then some (10 * n + (d.toNat - 48)) else none
    | none => none) (some 0)

def alg : jwt.SigningMethod → String
  | .HMAC a => a
  | .RSA a => a
  | .RSAPSS a => a
  | .ECDSA a => a
  | .None => "none"

def methodOf (a : String) : Option jwt.SigningMethod :=
  if a = "HS256" ∨ a = "HS384" ∨ a = "HS512" then some (.HMAC a)
  else if a = "RS256" ∨ a = "RS384" ∨ a = "RS512" then some (.RSA a)
  else if a = "PS256" ∨ a = "PS384" ∨ a = "PS512" then some (.RSAPSS a)
  else if a = "ES256" ∨ a = "ES384" ∨ a = "ES512" then some (.ECDSA a)
  else if a = "none" then some .None
  else none

/-- The stand-in for a keyed hash: the key and the length of the signed text. -/
def mac (sstr : String) (key : KeyBytes) : String := key ++ "#" ++ toString sstr.length

def malformed : jwt.ValidationError :=
  { Inner := "token contains an invalid number of segments", Malformed := true }

/-- A codec for claims with a user name and an expiry, issued by "localhost:9000": the
token string is the algorithm, a dot, the user name, a tilde and the expiry, a dot, the
signature.  The unsigned method signs with the empty string and verifies it. -/
def codec : jwt.Codec where
  SigningString := fun m c =>
    .ok (alg m ++ "." ++ c.Username ++ "~" ++ toString c.StandardClaims.ExpiresAt.toNat)
  Sign := fun m sstr key =>
    match m with
    | .HMAC _ => .ok (mac sstr key)
    | .None => .ok ""
    | _ => .error "key is of invalid type"
  Verify := fun m sstr sig key =>
    match m with
    | .HMAC _ => sig == mac sstr key
    | .None => sig == ""
    | _ => false
  ParseUnverified := fun s =>
    match pieces '.' s.toList with
    | [p0, p1, p2] =>
      match methodOf (String.mk p0), pieces '~' p1 with
      | some m, [user, exp] =>
        match digitsToNat exp with
        | some n =>
          .ok (m, { Username := String.mk user,
                    StandardClaims := { ExpiresAt := n, Issuer := "localhost:9000" } },
               String.mk p0, String.mk p1, String.mk p2)
        | none => .error malformed
      | _, _ => .error malformed
    | _ => .error malformed

def request (path : String) (cookies : List (String × String)) : Request :=
  { Method := "GET", Path := path, Query := [], Cookies := cookies, ctx := [] }

/-- The claims `setToken` mints when the clock reads less than a second past the epoch. -/
def claims : Claims :=
  { Username := "TestUser", StandardClaims := { ExpiresAt := 1800, Issuer := "localhost:9000" } }

/-- The token string of `claims` under HS256 and the key "secret". -/
def signed : String := "HS256.TestUser~1800.secret#19"

/-- The same claims under the unsigned method. -/
def unsignedToken : String := "none.TestUser~1800."

def token : jwt.Token :=
  { Raw := signed, Method := jwt.SigningMethodHS256, Claims := .ClaimsPtr claims,
    Signature := "secret#19", Valid := true }

end Toy

/-! ## a codec for all claims fields, with a proved round trip -/

namespace jwt

end jwt

namespace Plain

def digitChar (d : Nat) : Char := Char.ofNat (48 + d)

/-- The decimal digits of `n`, most significant first; `fuel` bounds their number. -/
def decimal : Nat → Nat → List Char
  | 0, _ => []
  | fuel + 1, n =>
    if n < 10 then [digitChar n] else decimal fuel (n / 10) ++ [digitChar (n % 10)]

def encNat (n : Nat) : List Char := decimal (n + 1) n

def decNat (cs : List Char) : Option Nat :=
  if cs.all Char.isDigit then some (cs.foldl (fun acc c => 10 * acc + (c.toNat - 48)) 0)
  else none

/-- A sign and the decimal digits of the absolute value. -/
def encInt (i : Int) : List Char := (if i < 0 then '-' else '+') :: encNat i.natAbs

def decInt : List Char → Option Int
  | [] => none
  | s :: ds =>
    match decNat ds with
    | some n => if s = '-' then some (-(n : Int)) else if s = '+' then some (n : Int) else none
    | none => none

/-- Escapes the three characters the token format uses itself. -/
def esc : List Char → List Char
  | [] => []
  | c :: cs =>
    if c = '.' then '%' :: 'd' :: esc cs
    else if c = '~' then '%' :: 't' :: esc cs
    else if c = '%' then '%' :: 'p' :: esc cs
    else c :: esc cs

def unesc : List Char → List Char
  | [] => []
  | [c] => [c]
  | c :: d :: cs =>
    if c = '%' then (if d = 'd' then '.' else if d = 't' then '~' else '%') :: unesc cs
    else c :: unesc (d :: cs)

/-- The claims part of the token string: the eight fields, separated by tildes. -/
def payload (c : Claims) : List Char :=
  esc c.Username.toList ++ '~' :: (esc c.StandardClaims.Audience.toList ++ '~' ::
    (encInt c.StandardClaims.ExpiresAt ++ '~' :: (esc c.StandardClaims.Id.toList ++ '~' ::
      (encInt c.StandardClaims.IssuedAt ++ '~' :: (esc c.StandardClaims.Issuer.toList ++ '~' ::
        (encInt c.StandardClaims.NotBefore ++ '~' :: esc c.StandardClaims.Subject.toList))))))

def decodePayload (p : List Char) : Option Claims :=
  match Toy.pieces '~' p with
  | [user, aud, exp, id, iat, iss, nbf, sub] =>
    match decInt exp, decInt iat, decInt nbf with
    | some exp, some iat, some nbf =>
      some { Username := String.mk (unesc user),
             StandardClaims :=
               { Audience := String.mk (unesc aud), ExpiresAt := exp, Id := String.mk (unesc id),
                 IssuedAt := iat, Issuer := String.mk (unesc iss), NotBefore := nbf,
                 Subject := String.mk (unesc sub) } }
    | _, _, _ => none
  | _ => none

/-- The stand-in for a keyed hash: the escaped key and the length of the signed text. -/
def mac (sstr : String) (key : KeyBytes) : String :=
  String.mk (esc key.toList ++ '#' :: encNat sstr.length)

/-- A codec for every claims value: the token string is the algorithm name, a dot, the
claims fields, a dot, the signature.  It stands in for the JSON, base64 and HMAC coding of
the library. -/
def codec : jwt.Codec where
  SigningString := fun m c => .ok (Toy.alg m ++ "." ++ String.mk (payload c))
  Sign := fun m sstr key =>
    match m with
    | .HMAC _ => .ok (mac sstr key)
    | .None => .ok ""
    | _ => .error "key is of invalid type"
  Verify := fun m sstr sig key =>
    match m with
    | .HMAC _ => sig == mac sstr key
    | _ => false
  ParseUnverified := fun s =>
    match Toy.pieces '.' s.toList with
    | [p0, p1, p2] =>
      match Toy.methodOf (String.mk p0), decodePayload p1 with
      | some m, some c => .ok (m, c, String.mk p0, String.mk p1, String.mk p2)
      | _, _ => .error Toy.malformed
    | _ => .error Toy.malformed

end Plain

/-! ## shared lemmas -/

theorem unauthorized_eq (res : ResponseWriter) :
    unauthorized res =
      { res with
        header := res.header.filter (fun kv => kv.1 != "Content-Type") ++
          [("Content-Type", "text/html")],
        body := res.body ++ "Unauthorized - Please login <br><a href=\"login\"> Login </a>" } := by
  simp [unauthorized, ResponseWriter.HeaderSet, fmt.Fprint, String.append_assoc]

theorem unauthorized_fresh :
    unauthorized ResponseWriter.fresh =
      { header := [("Content-Type", "text/html")],
        body := "Unauthorized - Please login <br><a href=\"login\"> Login </a>",
        status := none, cookies := [], redirect := none } := by
  decide

theorem validate_refuses (errText : String) (lib : jwt.Library) (page : HandlerFunc)
    (clock : Clock) (res : ResponseWriter) (req : Request)
    (h : (∃ e, req.Cookie "Auth" = .error e) ∨
         (∃ c e, req.Cookie "Auth" = .ok c ∧
            lib.ParseWithClaims (clock 0) c.2 (keyFunc errText) = .error e) ∨
         (∃ c tok, req.Cookie "Auth" = .ok c ∧
            lib.ParseWithClaims (clock 0) c.2 (keyFunc errText) = .ok tok ∧
            tok.Valid = false)) :
    validate errText lib page clock res req = unauthorized res := by
  rcases h with ⟨e, h⟩ | ⟨c, e, h, hp⟩ | ⟨c, tok, h, hp, hv⟩
  · simp [validate, h]
  · simp [validate, h, hp]
  · simp only [validate, h, hp, hv]
    cases tok.Claims <;> rfl

theorem validate_accepts (errText : String) (lib : jwt.Library) (page : HandlerFunc)
    (clock : Clock) (res : ResponseWriter) (req : Request) (c : String × String)
    (tok : jwt.Token) (claims : Claims)
    (hCookie : req.Cookie "Auth" = .ok c)
    (hParse : lib.ParseWithClaims (clock 0) c.2 (keyFunc errText) = .ok tok)
    (hClaims : tok.Claims = .ClaimsPtr claims) (hValid : tok.Valid = true) :
    validate errText lib page clock res req =
      page clock.tail res { req with ctx := (MyKey, CtxValue.Claims claims) :: req.ctx } := by
  simp only [validate, hCookie, hParse, hClaims, hValid]
  rfl

/-- The middleware either refuses, or found a cookie whose token parsed as valid `*Claims`
and ran the page once. -/
theorem validate_cases (errText : String) (lib : jwt.Library) (page : HandlerFunc)
    (clock : Clock) (res : ResponseWriter) (req : Request) :
    validate errText lib page clock res req = unauthorized res ∨
    ∃ c tok claims, req.Cookie "Auth" = .ok c ∧
      lib.ParseWithClaims (clock 0) c.2 (keyFunc errText) = .ok tok ∧
      tok.Claims = .ClaimsPtr claims ∧ tok.Valid = true ∧
      validate errText lib page clock res req =
        page clock.tail res { req with ctx := (MyKey, CtxValue.Claims claims) :: req.ctx } := by
  cases hc : req.Cookie "Auth" with
  | error e => exact Or.inl (validate_refuses _ _ _ _ _ _ (Or.inl ⟨e, hc⟩))
  | ok c =>
    cases hp : lib.ParseWithClaims (clock 0) c.2 (keyFunc errText) with
    | error e => exact Or.inl (validate_refuses _ _ _ _ _ _ (Or.inr (Or.inl ⟨c, e, hc, hp⟩)))
    | ok tok =>
      cases hv : tok.Valid with
      | false =>
        exact Or.inl (validate_refuses _ _ _ _ _ _ (Or.inr (Or.inr ⟨c, tok, hc, hp, hv⟩)))
      | true =>
        cases hcl : tok.Claims with
        | ClaimsPtr claims =>
          exact Or.inr ⟨c, tok, claims, rfl, hp, hcl, hv,
            validate_accepts _ _ _ _ _ _ c tok claims hc hp hcl hv⟩
        | Other m =>
          left
          simp only [validate, hc, hp, hcl, hv]

theorem handler_logout (p : Program) (lib : jwt.Library) :
    (p.main lib).handler "/logout" = some (validate p.errText lib logout) := by
  cases p <;> rfl

/-- A round-tripping token whose claims carry no issued-at and no not-before parses as
valid, with the claims that were signed, while its expiry has not passed. -/
theorem parse_roundtrip (codec : jwt.Codec) (alg : String) (c : Claims) (key : KeyBytes)
    (v : String) (kf : jwt.Keyfunc) (now : Time)
    (hRound : codec.RoundTrips (.HMAC alg) c key v)
    (hKey : ∀ tok : jwt.Token, tok.Method = .HMAC alg → kf tok = .ok key)
    (hIat : c.StandardClaims.IssuedAt = 0) (hNbf : c.StandardClaims.NotBefore = 0)
    (hExp : c.StandardClaims.ExpiresAt = 0 ∨ time.Unix now ≤ c.StandardClaims.ExpiresAt) :
    ∃ sig, jwt.ParseWithClaims codec now v kf =
      .ok { Raw := v, Method := .HMAC alg, Claims := .ClaimsPtr c, Signature := sig,
            Valid := true } := by
  obtain ⟨_, p0, p1, p2, hParse, hVerify⟩ := hRound
  refine ⟨p2, ?_⟩
  have hv : jwt.verifyExp c.StandardClaims.ExpiresAt (time.Unix now) false = true := by
    unfold jwt.verifyExp
    rcases hExp with h | h
    · simp [h]
    · by_cases h0 : c.StandardClaims.ExpiresAt = 0
      · simp [h0]
      · simp [h0, h]
  simp [jwt.ParseWithClaims, hParse, hKey, hVerify, jwt.StandardClaims.Valid, hv, hIat, hNbf,
    jwt.verifyIat, jwt.verifyNbf, jwt.ValidationError.valid]

/-- A round-tripping token is refused once the whole-second clock is past a non-zero expiry. -/
theorem parse_expired (codec : jwt.Codec) (method : jwt.SigningMethod) (c : Claims) (key : KeyBytes)
    (v : String) (kf : jwt.Keyfunc) (now : Time)
    (hRound : codec.RoundTrips method c key v)
    (h0 : c.StandardClaims.ExpiresAt ≠ 0)
    (hExp : c.StandardClaims.ExpiresAt < time.Unix now) :
    ∃ e, jwt.ParseWithClaims codec now v kf = .error e := by
  obtain ⟨_, p0, p1, p2, hParse, hVerify⟩ := hRound
  have hv : jwt.verifyExp c.StandardClaims.ExpiresAt (time.Unix now) false = false := by
    unfold jwt.verifyExp
    simp [h0, hExp]
  have hExpired : (jwt.StandardClaims.Valid c.StandardClaims now).Expired = true := by
    simp only [jwt.StandardClaims.Valid, hv]
    split_ifs <;> rfl
  cases hres : jwt.ParseWithClaims codec now v kf with
  | error e => exact ⟨e, rfl⟩
  | ok tok =>
    exfalso
    unfold jwt.ParseWithClaims at hres
    simp only [hParse] at hres
    cases hk : kf _ with
    | error e =>
      rw [hk] at hres
      cases hres
    | ok k =>
      rw [hk] at hres
      dsimp only at hres
      by_cases hs : codec.Verify method (p0 ++ "." ++ p1) p2 k = true
      · simp [hs, jwt.ValidationError.valid, hExpired] at hres
      · simp [hs, jwt.ValidationError.valid, hExpired] at hres

theorem Values.Get_absent (q : List (String × String)) (key : String)
    (h : ∀ kv ∈ q, kv.1 ≠ key) : Values.Get q key = "" := by
  induction q with
  | nil => rfl
  | cons kv rest ih =>
    obtain ⟨k, v⟩ := kv
    have hk : k ≠ key := h (k, v) (List.mem_cons_self _ _)
    simp only [Values.Get, hk, if_false]
    exact ih (fun kv hkv => h kv (List.mem_cons_of_mem _ hkv))

theorem keyFunc_hmac (errText : String) (tok : jwt.Token) (alg : String)
    (h : tok.Method = .HMAC alg) : keyFunc errText tok = .ok "secret" := by
  simp [keyFunc, h]

theorem setToken_value (codec : jwt.Codec) (clock : Clock) (res : ResponseWriter)
    (req : Request) (v : String)
    (h : jwt.SignedString codec jwt.SigningMethodHS256
      (tokenClaims (time.Unix (time.Add (clock 0) (time.Minute * 30)))) "secret" = .ok v) :
    lastCookieValue (setToken (jwt.std codec) clock res req) = v := by
  simp [lastCookieValue, setToken, SetCookie, Redirect, jwt.std, h]

theorem whole_second (t : Int) :
    t / 1000000000 * 1000000000 ≤ t ∧
    (t / 1000000000 * 1000000000 < t ↔ t % 1000000000 ≠ 0) := by
  constructor
  · omega
  · constructor <;> intro h <;> omega

/-! ## the round trip of the codec `Plain.codec` -/

namespace Plain

end Plain

/-! ## the claims -/

/-- C1: whenever the `Auth` cookie is absent, or `jwt.ParseWithClaims` returns an error
(whatever its cause), or the parsed token is not `Valid`, `validate page` answers with the
refusal and nothing of `page`: the writer gets Content-Type text/html and the body
`Unauthorized - Please login <br><a href="login"> Login </a>`, no status is set, and on a
fresh writer the response is one constant, the same for every page, library, clock and
cookie value. -/
theorem C1_validate_refusal_is_constant (errText : String) (lib : jwt.Library)
    (page : HandlerFunc) (clock : Clock) (res : ResponseWriter) (req : Request)
    (h : (∃ e, req.Cookie "Auth" = .error e) ∨
         (∃ c e, req.Cookie "Auth" = .ok c ∧
            lib.ParseWithClaims (clock 0) c.2 (keyFunc errText) = .error e) ∨
         (∃ c tok, req.Cookie "Auth" = .ok c ∧
            lib.ParseWithClaims (clock 0) c.2 (keyFunc errText) = .ok tok ∧
            tok.Valid = false)) :
    validate errText lib page clock res req =
      { res with
        header := res.header.filter (fun kv => kv.1 != "Content-Type") ++
          [("Content-Type", "text/html")],
        body := res.body ++ "Unauthorized - Please login <br><a href=\"login\"> Login </a>" } ∧
    (validate errText lib page clock res req).status = res.status ∧
    (res = ResponseWriter.fresh →
      validate errText lib page clock res req =
        { header := [("Content-Type", "text/html")],
          body := "Unauthorized - Please login <br><a href=\"login\"> Login </a>",
          status := none, cookies := [], redirect := none }) := by
  have hv := validate_refuses errText lib page clock res req h
  refine ⟨?_, ?_, ?_⟩
  · rw [hv, unauthorized_eq]
  · rw [hv, unauthorized_eq]
  · intro hres
    rw [hv, hres, unauthorized_fresh]

/-- C1, at a request without cookie. -/
theorem C1_validate_refusal_is_constant_witness :
    (validate Session.errText (jwt.std Toy.codec) logout (fun _ => 7) ResponseWriter.fresh
        (Toy.request "/logout" [])).body =
      "Unauthorized - Please login <br><a href=\"login\"> Login </a>" ∧
    (validate Session.errText (jwt.std Toy.codec) logout (fun _ => 7) ResponseWriter.fresh
        (Toy.request "/logout" [])).cookies = [] :=
  have h := (C1_validate_refusal_is_constant Session.errText (jwt.std Toy.codec) logout
    (fun _ => 7) ResponseWriter.fresh (Toy.request "/logout" [])
    (Or.inl ⟨"http: named cookie not present", rfl⟩)).2.2 rfl
  ⟨by rw [h], by rw [h]⟩

/-- C2: for a token whose declared method is not of the HMAC type (the unsigned method and
every RSA, RSA-PSS and ECDSA method), the key callback of `validate` returns its error
("unexpected signing method" in `session-management/session.go`) and no key; the library
then returns that error as unverifiable, before and whatever the signature check would
answer, and `validate` writes the refusal for every wrapped page. -/
theorem C2_non_hmac_method_refused (errText : String) (codec : jwt.Codec)
    (method : jwt.SigningMethod) (hMethod : ∀ alg, method ≠ .HMAC alg) :
    (∀ tok : jwt.Token, tok.Method = method → keyFunc errText tok = .error errText) ∧
    (∀ (now : Time) (tokenString : String) (claims : Claims) (p0 p1 p2 : String),
      codec.ParseUnverified tokenString = .ok (method, claims, p0, p1, p2) →
      jwt.ParseWithClaims codec now tokenString (keyFunc errText) =
          .error { Inner := errText, Unverifiable := true } ∧
      ∀ (page : HandlerFunc) (clock : Clock) (res : ResponseWriter) (req : Request)
        (name : String), req.Cookie "Auth" = .ok (name, tokenString) →
        validate errText (jwt.std codec) page clock res req = unauthorized res) ∧
    Session.errText = "unexpected signing method" := by
  have hk : ∀ tok : jwt.Token, tok.Method = method → keyFunc errText tok = .error errText := by
    intro tok ht
    unfold keyFunc
    cases hm : tok.Method with
    | HMAC alg => exact absurd (ht ▸ hm) (hMethod alg)
    | RSA alg => rfl
    | RSAPSS alg => rfl
    | ECDSA alg => rfl
    | None => rfl
  refine ⟨hk, ?_, rfl⟩
  intro now tokenString claims p0 p1 p2 hParse
  have hp : ∀ t : Time, jwt.ParseWithClaims codec t tokenString (keyFunc errText) =
      .error { Inner := errText, Unverifiable := true } := by
    intro t
    simp [jwt.ParseWithClaims, hParse, hk]
  refine ⟨hp now, ?_⟩
  intro page clock res req name hCookie
  exact validate_refuses errText (jwt.std codec) page clock res req
    (Or.inr (Or.inl ⟨(name, tokenString), _, hCookie, hp (clock 0)⟩))

/-- C2, at the unsigned token of the small codec, whose empty signature that codec verifies. -/
theorem C2_non_hmac_method_refused_witness :
    Toy.codec.Verify jwt.SigningMethod.None "none.TestUser~1800" "" "secret" = true ∧
    jwt.ParseWithClaims Toy.codec 0 Toy.unsignedToken (keyFunc Session.errText) =
      .error { Inner := "unexpected signing method", Unverifiable := true } ∧
    validate Session.errText (jwt.std Toy.codec) Session.protectedProfile (fun _ => 0)
        ResponseWriter.fresh (Toy.request "/profile" [("Auth", Toy.unsignedToken)]) =
      unauthorized ResponseWriter.fresh :=
  have h := (C2_non_hmac_method_refused Session.errText Toy.codec jwt.SigningMethod.None
    (by intro alg h; cases h)).2.1 0 Toy.unsignedToken Toy.claims "none" "TestUser~1800" "" rfl
  ⟨rfl, h.1, h.2 Session.protectedProfile (fun _ => 0) ResponseWriter.fresh
    (Toy.request "/profile" [("Auth", Toy.unsignedToken)]) "Auth" rfl⟩

/-- C3: when the `Auth` cookie is present and its value parses without error into a token
with `Valid` true and claims `c` of type `*Claims`, `validate page` is one run of `page`, on
the response writer as `validate` received it (nothing written to it before or after) and
on the request changed only in its context, where `MyKey` now yields a copy of `c`. -/
theorem C3_validate_invokes_page_once (errText : String) (lib : jwt.Library)
    (page : HandlerFunc) (clock : Clock) (res : ResponseWriter) (req : Request)
    (cookie : String × String) (tok : jwt.Token) (c : Claims)
    (hCookie : req.Cookie "Auth" = .ok cookie)
    (hParse : lib.ParseWithClaims (clock 0) cookie.2 (keyFunc errText) = .ok tok)
    (hClaims : tok.Claims = .ClaimsPtr c) (hValid : tok.Valid = true) :
    ∃ req2 : Request,
      validate errText lib page clock res req = page clock.tail res req2 ∧
      context.Value req2.Context MyKey = some (CtxValue.Claims c) ∧
      req2.Context = context.WithValue req.Context MyKey (CtxValue.Claims c) ∧
      req2.Method = req.Method ∧ req2.Path = req.Path ∧ req2.Query = req.Query ∧
      req2.Cookies = req.Cookies := by
  refine ⟨{ req with ctx := (MyKey, CtxValue.Claims c) :: req.ctx }, ?_, ?_, rfl, rfl, rfl, rfl, rfl⟩
  · exact validate_accepts errText lib page clock res req cookie tok c hCookie hParse hClaims hValid
  · simp [Request.Context, context.Value]

/-- C3, at the request carrying the token the small codec accepts. -/
theorem C3_validate_invokes_page_once_witness :
    ∃ req2 : Request,
      validate Session.errText (jwt.std Toy.codec) logout (fun _ => 7) ResponseWriter.fresh
          (Toy.request "/logout" [("Auth", Toy.signed)]) =
        logout (Clock.tail (fun _ => 7)) ResponseWriter.fresh req2 ∧
      context.Value req2.Context MyKey = some (CtxValue.Claims Toy.claims) :=
  have ⟨req2, h1, h2, _⟩ := C3_validate_invokes_page_once Session.errText (jwt.std Toy.codec)
    logout (fun _ => 7) ResponseWriter.fresh (Toy.request "/logout" [("Auth", Toy.signed)])
    ("Auth", Toy.signed) Toy.token Toy.claims rfl rfl rfl rfl
  ⟨req2, h1, h2⟩

/-- C4: for every request, writer and library, `setToken` hands exactly one cookie to
`http.SetCookie`: name `Auth`, value the string `SignedString` returns for HS256, the key
"secret" and the claims with username "TestUser", issuer "localhost:9000" and `exp` the Unix
seconds of the clock reading plus 30 minutes; Expires the clock reading plus 30 minutes,
HttpOnly, Secure, path "/", domain "127.0.0.1"; then it redirects to `/profile` with status
307.  There is no other path through the handler.  The handler reads the clock twice,
`clock 0` for `exp` and `clock 1` for Expires; the second part of the statement is the case
of a clock that reads `now` both times. -/
theorem C4_setToken_cookie_and_redirect (lib : jwt.Library) (res : ResponseWriter)
    (req : Request) :
    (∀ clock : Clock,
      setToken lib clock res req =
        { res with
          cookies := res.cookies ++
            [{ Name := "Auth",
               Value :=
                 match lib.SignedString (jwt.SigningMethod.HMAC "HS256")
                   { Username := "TestUser",
                     StandardClaims :=
                       { ExpiresAt := (clock 0 + 1800000000000) / 1000000000,
                         Issuer := "localhost:9000" } } "secret" with
                 | .ok signedToken => signedToken
                 | .error _ => "",
               Expires := clock 1 + 1800000000000,
               HttpOnly := true, Secure := true, Path := "/", Domain := "127.0.0.1" }],
          status := some 307,
          redirect := some ("/profile", 307) }) ∧
    (∀ now : Time,
      ∃ cookie : Cookie,
        (setToken lib (fun _ => now) res req).cookies = res.cookies ++ [cookie] ∧
        (setToken lib (fun _ => now) res req).redirect = some ("/profile", 307) ∧
        cookie.Name = "Auth" ∧
        cookie.Value =
          (match lib.SignedString jwt.SigningMethodHS256
            { Username := "TestUser",
              StandardClaims :=
                { ExpiresAt := time.Unix (time.Add now (30 * time.Minute)),
                  Issuer := "localhost:9000" } } "secret" with
           | .ok signedToken => signedToken
           | .error _ => "") ∧
        cookie.Expires = time.Add now (30 * time.Minute) ∧
        cookie.HttpOnly = true ∧ cookie.Secure = true ∧ cookie.Path = "/" ∧
        cookie.Domain = "127.0.0.1") := by
  constructor
  · intro clock
    rfl
  · intro now
    exact ⟨_, rfl, rfl, rfl, rfl, rfl, rfl, rfl, rfl, rfl⟩

/-- C6, refuted.  No library makes the claim true: `setToken` keeps only the whole second
of the expiry, so tokens issued 0.2 s and 0.7 s past the epoch are the same string, and at
the instant 1800.5 s the claim wants the first refused and the second accepted.  And with
the library as modelled, the token issued at the epoch is still accepted at the instant
exactly equal to its `exp`, 1800 s. -/
theorem C6_expiry_boundary_counterexample :
    (¬ ∃ lib : jwt.Library, ∀ issue_time now : Time,
      (now < time.Add issue_time (time.Minute * 30) →
        validate Session.errText lib Session.protectedProfile (fun _ => now)
            ResponseWriter.fresh
            (Toy.request "/profile"
              [("Auth", lastCookieValue (setToken lib (fun _ => issue_time)
                ResponseWriter.fresh (Toy.request "/login" [])))]) ≠
          unauthorized ResponseWriter.fresh) ∧
      (time.Add issue_time (time.Minute * 30) ≤ now →
        validate Session.errText lib Session.protectedProfile (fun _ => now)
            ResponseWriter.fresh
            (Toy.request "/profile"
              [("Auth", lastCookieValue (setToken lib (fun _ => issue_time)
                ResponseWriter.fresh (Toy.request "/login" [])))]) =
          unauthorized ResponseWriter.fresh)) ∧
    lastCookieValue (setToken (jwt.std Toy.codec) (fun _ => 0) ResponseWriter.fresh
        (Toy.request "/login" [])) = Toy.signed ∧
    (validate Session.errText (jwt.std Toy.codec) Session.protectedProfile
        (fun _ => 1800 * time.Second) ResponseWriter.fresh
        (Toy.request "/profile" [("Auth", Toy.signed)])).body =
      "Hello TestUser <br><a href=\"logout\"> Logout </a>" := by
  refine ⟨?_, rfl, rfl⟩
  rintro ⟨lib, h⟩
  have h1 := (h 200000000 1800500000000).2 (by decide)
  have h2 := (h 700000000 1800500000000).1 (by decide)
  exact h2 h1

/-- C6, amended: for a token minted by `setToken` at an instant `issue_time` at or after
the Unix epoch, `exp` is the whole Unix second of `issue_time` plus 30 minutes, and a
request carrying the token passes `validate` at every instant whose whole Unix second is at
most `exp` (this includes the instant equal to `exp` and the rest of that second), and is
refused, the wrapped page not run, at every instant whose whole Unix second is greater than
`exp`.  The coding and signature primitives of the library are assumed to round-trip. -/
theorem C6_expiry_in_whole_seconds (codec : jwt.Codec) (errText : String) (page : HandlerFunc)
    (issue_time : Time) (v : String) (clock : Clock) (res : ResponseWriter) (req : Request)
    (hIssue : 0 ≤ issue_time)
    (hRound : codec.RoundTrips jwt.SigningMethodHS256
      (tokenClaims (time.Unix (time.Add issue_time (time.Minute * 30)))) "secret" v)
    (hCookie : req.Cookie "Auth" = .ok ("Auth", v)) :
    (∀ (clockI : Clock) (resI : ResponseWriter) (reqI : Request), clockI 0 = issue_time →
      lastCookieValue (setToken (jwt.std codec) clockI resI reqI) = v) ∧
    (time.Unix (clock 0) ≤ time.Unix (time.Add issue_time (time.Minute * 30)) →
      validate errText (jwt.std codec) page clock res req =
        page clock.tail res
          { req with
            ctx := (MyKey, CtxValue.Claims
              (tokenClaims (time.Unix (time.Add issue_time (time.Minute * 30))))) ::
                req.ctx }) ∧
    (time.Unix (time.Add issue_time (time.Minute * 30)) < time.Unix (clock 0) →
      validate errText (jwt.std codec) page clock res req = unauthorized res) := by
  refine ⟨?_, ?_, ?_⟩
  · intro clockI resI reqI hI
    exact setToken_value codec clockI resI reqI v (by rw [hI]; exact hRound.1)
  · intro hle
    obtain ⟨sig, hParse⟩ := parse_roundtrip codec "HS256" _ "secret" v (keyFunc errText)
      (clock 0) hRound (fun tok h => keyFunc_hmac errText tok "HS256" h) rfl rfl (Or.inr hle)
    exact validate_accepts errText (jwt.std codec) page clock res req ("Auth", v) _ _
      hCookie hParse rfl rfl
  · intro hlt
    have hpos : (tokenClaims (time.Unix (time.Add issue_time (time.Minute * 30)))).StandardClaims.ExpiresAt ≠ 0 := by
      have hI : (0 : Int) ≤ issue_time := hIssue
      have : (1800 : Int) ≤ time.Unix (time.Add issue_time (time.Minute * 30)) := by
        unfold time.Unix time.Add time.Minute time.Second
        omega
      simp only [tokenClaims]
      omega
    obtain ⟨e, hParse⟩ := parse_expired codec jwt.SigningMethodHS256 _ "secret" v
      (keyFunc errText) (clock 0) hRound hpos hlt
    exact validate_refuses errText (jwt.std codec) page clock res req
      (Or.inr (Or.inl ⟨("Auth", v), e, hCookie, hParse⟩))

/-- C6 amended, with the small codec: the token minted at the epoch, at the last
nanosecond of the second 1800 and at the first of the second 1801. -/
theorem C6_expiry_in_whole_seconds_witness :
    (validate Session.errText (jwt.std Toy.codec) Session.protectedProfile
        (fun _ => 1800999999999) ResponseWriter.fresh
        (Toy.request "/profile" [("Auth", Toy.signed)])).body =
      "Hello TestUser <br><a href=\"logout\"> Logout </a>" ∧
    validate Session.errText (jwt.std Toy.codec) Session.protectedProfile
        (fun _ => 1801000000000) ResponseWriter.fresh
        (Toy.request "/profile" [("Auth", Toy.signed)]) =
      unauthorized ResponseWriter.fresh :=
  ⟨by
    rw [(C6_expiry_in_whole_seconds Toy.codec Session.errText Session.protectedProfile 0
      Toy.signed (fun _ => 1800999999999) ResponseWriter.fresh
      (Toy.request "/profile" [("Auth", Toy.signed)]) (by decide)
      ⟨rfl, "HS256", "TestUser~1800", "secret#19", rfl, rfl⟩ rfl).2.1 (by decide)]
    rfl,
   (C6_expiry_in_whole_seconds Toy.codec Session.errText Session.protectedProfile 0
      Toy.signed (fun _ => 1801000000000) ResponseWriter.fresh
      (Toy.request "/profile" [("Auth", Toy.signed)]) (by decide)
      ⟨rfl, "HS256", "TestUser~1800", "secret#19", rfl, rfl⟩ rfl).2.2 (by decide)⟩

/-- C7: `protectedProfile` of `URL.go`, on a request whose context holds claims `c` under
`MyKey`, writes Content-Type text/html and a body fixed by `c.Username` and the first
`page` query value alone: `PAGE 2 <br><a href="logout"> Logout </a>`, without the greeting,
when that value is "page2", and `Hello <c.Username> <br><a href="logout"> Logout </a>` for
any other value or none; on a request without claims under `MyKey` it writes the refusal. -/
theorem C7_protectedProfile_views (clock : Clock) (res : ResponseWriter) (req : Request) :
    (∀ c : Claims, context.Value req.Context MyKey = some (CtxValue.Claims c) →
      URL.protectedProfile clock res req =
        { res with
          header := res.header.filter (fun kv => kv.1 != "Content-Type") ++
            [("Content-Type", "text/html")],
          body := res.body ++
            (if Values.Get req.Query "page" = "page2"
             then "PAGE 2 <br><a href=\"logout\"> Logout </a>"
             else "Hello " ++ c.Username ++ " <br><a href=\"logout\"> Logout </a>") }) ∧
    contains "PAGE 2 <br><a href=\"logout\"> Logout </a>" "Hello" = false ∧
    ((∀ kv ∈ req.Query, kv.1 ≠ "page") → Values.Get req.Query "page" = "") ∧
    ((∀ c : Claims, context.Value req.Context MyKey ≠ some (CtxValue.Claims c)) →
      URL.protectedProfile clock res req = unauthorized res) := by
  refine ⟨?_, by decide, Values.Get_absent req.Query "page", ?_⟩
  · intro c hc
    by_cases hp : Values.Get req.Query "page" = "page2"
    · simp [URL.protectedProfile, hc, hp, ResponseWriter.HeaderSet, fmt.Fprint,
        String.append_assoc]
    · simp [URL.protectedProfile, hc, hp, ResponseWriter.HeaderSet, fmt.Fprint,
        String.append_assoc]
  · intro hno
    unfold URL.protectedProfile
    split
    · next claims hcl => exact absurd hcl (hno claims)
    · rfl

/-- C7, at `/profile?page=page2` and at `/profile` for the user "TestUser". -/
theorem C7_protectedProfile_views_witness :
    (URL.protectedProfile (fun _ => 0) ResponseWriter.fresh
        { Toy.request "/profile" [] with
          Query := [("page", "page2")], ctx := [(MyKey, CtxValue.Claims Toy.claims)] }).body =
      "PAGE 2 <br><a href=\"logout\"> Logout </a>" ∧
    (URL.protectedProfile (fun _ => 0) ResponseWriter.fresh
        { Toy.request "/profile" [] with ctx := [(MyKey, CtxValue.Claims Toy.claims)] }).body =
      "Hello TestUser <br><a href=\"logout\"> Logout </a>" ∧
    URL.protectedProfile (fun _ => 0) ResponseWriter.fresh (Toy.request "/profile" []) =
      unauthorized ResponseWriter.fresh :=
  ⟨by rw [(C7_protectedProfile_views (fun _ => 0) ResponseWriter.fresh
        { Toy.request "/profile" [] with
          Query := [("page", "page2")], ctx := [(MyKey, CtxValue.Claims Toy.claims)] }).1
        Toy.claims rfl]; decide,
   by rw [(C7_protectedProfile_views (fun _ => 0) ResponseWriter.fresh
        { Toy.request "/profile" [] with ctx := [(MyKey, CtxValue.Claims Toy.claims)] }).1
        Toy.claims rfl]; decide,
   (C7_protectedProfile_views (fun _ => 0) ResponseWriter.fresh
        (Toy.request "/profile" [])).2.2.2
        (by intro c h; simp [Toy.request, Request.Context, context.Value] at h)⟩

/-- C8, refuted: run at the clock reading of exactly 5 s, `logout` sets the `Auth` cookie
with Expires 5 s, and the Set-Cookie line carries second 5: the instant of the reading
itself, not one strictly earlier. -/
theorem C8_logout_expiry_counterexample :
    ¬ ∀ (clock : Clock) (res : ResponseWriter) (req : Request),
        ∃ (cookie : Cookie) (second : Int),
          (logout clock res req).cookies = res.cookies ++ [cookie] ∧
          cookie.Name = "Auth" ∧ cookie.ExpiresWritten = some second ∧
          second * time.Second < clock 0 := by
  intro h
  obtain ⟨cookie, second, hc, _, hw, hlt⟩ :=
    h (fun _ => 5000000000) ResponseWriter.fresh (Toy.request "/logout" [])
  have hcookie : cookie = { Name := "Auth", Value := "none", Expires := 5000000000 } := by
    simp [logout, SetCookie, ResponseWriter.fresh] at hc
    rw [← hc]
  rw [hcookie] at hw
  have hs : second = 5 := by
    have : Cookie.ExpiresWritten { Name := "Auth", Value := "none", Expires := 5000000000 } =
        some 5 := by decide
    rw [this] at hw
    exact (Option.some.inj hw).symm
  rw [hs] at hlt
  exact absurd hlt (by decide)

/-- C8, amended: for every request and every clock reading at or after the Unix epoch,
`logout` hands exactly one cookie to `http.SetCookie`, named `Auth` like the session
cookie, with value "none", no path, no domain, and Expires the reading of the clock.  The
Set-Cookie line carries that instant in whole seconds, the whole Unix second of the
reading: it is never later than the reading, strictly earlier exactly when the reading is
not on a whole second, and equal to it when it is. -/
theorem C8_logout_expires_whole_second (clock : Clock) (res : ResponseWriter) (req : Request)
    (hEpoch : 0 ≤ clock 0) :
    logout clock res req =
      { res with
        cookies := res.cookies ++
          [{ Name := "Auth", Value := "none", Expires := clock 0, Path := "", Domain := "",
             HttpOnly := false, Secure := false }] } ∧
    ∃ cookie : Cookie,
      (logout clock res req).cookies = res.cookies ++ [cookie] ∧
      cookie.Name = "Auth" ∧ cookie.Value = "none" ∧
      cookie.ExpiresWritten = some (time.Unix (clock 0)) ∧
      time.Unix (clock 0) * time.Second ≤ clock 0 ∧
      (time.Unix (clock 0) * time.Second < clock 0 ↔ clock 0 % time.Second ≠ 0) := by
  refine ⟨rfl, _, rfl, rfl, rfl, ?_, ?_, ?_⟩
  · have h0 : (0 : Int) ≤ clock 0 := hEpoch
    have hYear : (-11644473600 : Int) ≤ clock 0 / 1000000000 := by omega
    simp only [Cookie.ExpiresWritten, validCookieExpires]
    rw [if_pos (by simpa [time.Unix, time.Second] using hYear)]
  · exact (whole_second (clock 0)).1
  · exact (whole_second (clock 0)).2

/-- C8 amended, at the reading of 5 ns past the epoch and at the reading of exactly 5 s. -/
theorem C8_logout_expires_whole_second_witness :
    (0 : Time) ≤ 5 ∧
    (∃ cookie : Cookie,
      (logout (fun _ => 5) ResponseWriter.fresh (Toy.request "/logout" [])).cookies =
        [cookie] ∧
      cookie.ExpiresWritten = some 0 ∧ (0 : Int) * time.Second < 5) ∧
    (∃ cookie : Cookie,
      (logout (fun _ => 5000000000) ResponseWriter.fresh (Toy.request "/logout" [])).cookies =
        [cookie] ∧
      cookie.ExpiresWritten = some 5 ∧ ¬ (5 : Int) * time.Second < 5000000000) :=
  have ⟨c1, h1, _, _, w1, _, _⟩ := (C8_logout_expires_whole_second (fun _ => 5)
    ResponseWriter.fresh (Toy.request "/logout" []) (by decide)).2
  have ⟨c2, h2, _, _, w2, _, _⟩ := (C8_logout_expires_whole_second (fun _ => 5000000000)
    ResponseWriter.fresh (Toy.request "/logout" []) (by decide)).2
  ⟨by decide, ⟨c1, h1, w1, by decide⟩, ⟨c2, h2, w2, by decide⟩⟩

/-- C9: in each of the three session programs the route table registers `/logout` as
`validate(logout)`.  A request to `/logout` without `Auth` cookie, or whose token fails to
parse or is not valid, gets the refusal page and no cookie is set; the response carries a
new cookie only if the cookie was present and parsed into a valid token, and the new cookie
then is the clearing one. -/
theorem C9_logout_is_gated (p : Program) (lib : jwt.Library) (clock : Clock)
    (res : ResponseWriter) (req : Request) (hPath : req.Path = "/logout") :
    (p.main lib).handler "/logout" = some (validate p.errText lib logout) ∧
    (((∃ e, req.Cookie "Auth" = .error e) ∨
        (∃ c e, req.Cookie "Auth" = .ok c ∧
          lib.ParseWithClaims (clock 0) c.2 (keyFunc p.errText) = .error e) ∨
        (∃ c tok, req.Cookie "Auth" = .ok c ∧
          lib.ParseWithClaims (clock 0) c.2 (keyFunc p.errText) = .ok tok ∧
          tok.Valid = false)) →
      (p.main lib).ServeHTTP clock res req = unauthorized res ∧
      ((p.main lib).ServeHTTP clock res req).cookies = res.cookies) ∧
    (((p.main lib).ServeHTTP clock res req).cookies ≠ res.cookies →
      ∃ c tok claims, req.Cookie "Auth" = .ok c ∧
        lib.ParseWithClaims (clock 0) c.2 (keyFunc p.errText) = .ok tok ∧
        tok.Claims = .ClaimsPtr claims ∧ tok.Valid = true ∧
        ((p.main lib).ServeHTTP clock res req).cookies =
          res.cookies ++ [{ Name := "Auth", Value := "none", Expires := clock 1 }]) := by
  have hServe : (p.main lib).ServeHTTP clock res req =
      validate p.errText lib logout clock res req := by
    simp only [ServeMux.ServeHTTP, hPath, handler_logout]
  refine ⟨handler_logout p lib, ?_, ?_⟩
  · intro h
    rw [hServe, validate_refuses p.errText lib logout clock res req h]
    exact ⟨rfl, rfl⟩
  · intro hne
    rw [hServe] at hne ⊢
    rcases validate_cases p.errText lib logout clock res req with hu | ⟨c, tok, claims, hc, hp, hcl, hv, hrun⟩
    · rw [hu] at hne
      exact absurd rfl hne
    · exact ⟨c, tok, claims, hc, hp, hcl, hv, by rw [hrun]; rfl⟩

/-- C9, at a request to `/logout` without cookie, for the route table of `session.go`. -/
theorem C9_logout_is_gated_witness :
    (Toy.request "/logout" []).Path = "/logout" ∧
    (Program.session.main (jwt.std Toy.codec)).ServeHTTP (fun _ => 0) ResponseWriter.fresh
        (Toy.request "/logout" []) = unauthorized ResponseWriter.fresh :=
  ⟨rfl, ((C9_logout_is_gated Program.session (jwt.std Toy.codec) (fun _ => 0)
    ResponseWriter.fresh (Toy.request "/logout" []) rfl).2.1
      (Or.inl ⟨"http: named cookie not present", rfl⟩)).1⟩

/-- C10, refuted: in `session-management/session.go` a request to `/` without cookie gets
the refusal page, which has no link to `profile`; with a valid cookie the same route
greets the user: the handler registered for `/` reads the cookie and verifies the token. -/
theorem C10_root_route_counterexample :
    (Program.session.main (jwt.std Toy.codec)).ServeHTTP (fun _ => 0) ResponseWriter.fresh
        (Toy.request "/" []) = unauthorized ResponseWriter.fresh ∧
    contains ((Program.session.main (jwt.std Toy.codec)).ServeHTTP (fun _ => 0)
        ResponseWriter.fresh (Toy.request "/" [])).body "<a href=\"profile\">" = false ∧
    contains ((Program.session.main (jwt.std Toy.codec)).ServeHTTP (fun _ => 0)
        ResponseWriter.fresh (Toy.request "/" [])).body "<a href=\"profile?page=page2\">" =
      false ∧
    ((Program.session.main (jwt.std Toy.codec)).ServeHTTP (fun _ => 0) ResponseWriter.fresh
        (Toy.request "/" [("Auth", Toy.signed)])).body =
      "Hello TestUser <br><a href=\"logout\"> Logout </a>" := by
  refine ⟨rfl, ?_, ?_, rfl⟩
  · decide
  · decide

/-- C10, amended: in `URL.go` every request to `/`, with or without `Auth` cookie, is served
by `Homepage`, which reads no cookie and verifies no token, and whose body has the links to
`login`, `profile` and `profile?page=page2`.  In the two `session.go` programs `/` is
registered as `validate(protectedProfile)`, like `/profile`: the request is served the
profile greeting behind the session check, and the refusal page when it has no `Auth`
cookie. -/
theorem C10_root_route_by_program (lib : jwt.Library) (clock : Clock) (res : ResponseWriter)
    (req : Request) (hPath : req.Path = "/") :
    ((URL.main lib).ServeHTTP clock res req =
      { res with
        header := res.header.filter (fun kv => kv.1 != "Content-Type") ++
          [("Content-Type", "text/html")],
        body := res.body ++ ("Unauthorized - Please login <br><a href=\"login\"> Login </a> <br>" ++
          "<a href=\"profile?page=page2\"> URL Parameters page 2 - Protected </a> <br>" ++
          "<a href=\"profile\"> Profile - Protected </a> <br>") }) ∧
    (contains ("Unauthorized - Please login <br><a href=\"login\"> Login </a> <br>" ++
          "<a href=\"profile?page=page2\"> URL Parameters page 2 - Protected </a> <br>" ++
          "<a href=\"profile\"> Profile - Protected </a> <br>") "<a href=\"login\">" = true ∧
      contains ("Unauthorized - Please login <br><a href=\"login\"> Login </a> <br>" ++
          "<a href=\"profile?page=page2\"> URL Parameters page 2 - Protected </a> <br>" ++
          "<a href=\"profile\"> Profile - Protected </a> <br>") "<a href=\"profile\">" = true ∧
      contains ("Unauthorized - Please login <br><a href=\"login\"> Login </a> <br>" ++
          "<a href=\"profile?page=page2\"> URL Parameters page 2 - Protected </a> <br>" ++
          "<a href=\"profile\"> Profile - Protected </a> <br>")
          "<a href=\"profile?page=page2\">" = true) ∧
    (Session.main lib).ServeHTTP clock res req =
      validate Session.errText lib Session.protectedProfile clock res req ∧
    (SessionEn.main lib).ServeHTTP clock res req =
      validate SessionEn.errText lib Session.protectedProfile clock res req ∧
    ((∃ e, req.Cookie "Auth" = .error e) →
      (Session.main lib).ServeHTTP clock res req = unauthorized res ∧
      (SessionEn.main lib).ServeHTTP clock res req = unauthorized res) := by
  have hS : (Session.main lib).ServeHTTP clock res req =
      validate Session.errText lib Session.protectedProfile clock res req := by
    simp only [ServeMux.ServeHTTP, hPath]
    rfl
  have hE : (SessionEn.main lib).ServeHTTP clock res req =
      validate SessionEn.errText lib Session.protectedProfile clock res req := by
    simp only [ServeMux.ServeHTTP, hPath]
    rfl
  refine ⟨?_, ⟨by decide, by decide, by decide⟩, hS, hE, ?_⟩
  · have hU : (URL.main lib).ServeHTTP clock res req = URL.Homepage clock res req := by
      simp only [ServeMux.ServeHTTP, hPath]
      rfl
    rw [hU]
    simp [URL.Homepage, ResponseWriter.HeaderSet, fmt.Fprint, String.append_assoc]
  · intro h
    rw [hS, hE]
    exact ⟨validate_refuses _ _ _ _ _ _ (Or.inl h), validate_refuses _ _ _ _ _ _ (Or.inl h)⟩

/-- C10 amended, at a request to `/` without cookie. -/
theorem C10_root_route_by_program_witness :
    (Toy.request "/" []).Path = "/" ∧
    ((URL.main (jwt.std Toy.codec)).ServeHTTP (fun _ => 0) ResponseWriter.fresh
        (Toy.request "/" [])).body =
      "Unauthorized - Please login <br><a href=\"login\"> Login </a> <br><a href=\"profile?page=page2\"> URL Parameters page 2 - Protected </a> <br><a href=\"profile\"> Profile - Protected </a> <br>" ∧
    (Session.main (jwt.std Toy.codec)).ServeHTTP (fun _ => 0) ResponseWriter.fresh
        (Toy.request "/" []) = unauthorized ResponseWriter.fresh :=
  have h := C10_root_route_by_program (jwt.std Toy.codec) (fun _ => 0) ResponseWriter.fresh
    (Toy.request "/" []) rfl
  ⟨rfl, by rw [h.1]; rfl, (h.2.2.2.2 ⟨"http: named cookie not present", rfl⟩).1⟩

end GoSCP
